import Mathlib

/-!
Verification development for the Concox V5 IoT tracking server
(`iot-module`).  Byte buffers are modelled as `List Nat` whose elements
are byte values; multi-byte reads, the CRC-ITU checksum, the frame
codec, the payload parsers and the command encoder are shallow
embeddings of the corresponding JavaScript functions, translated
definition by definition from the source files named in the doc
comments.
-/

namespace Concox

/-- Node `buffer.readUInt16BE(i)`: big-endian 16-bit read at offset `i`.
Out-of-range reads are modelled with default byte 0 (real calls stay in
range). -/
def readUInt16BE (data : List Nat) (i : Nat) : Nat :=
  256 * data.getD i 0 + data.getD (i + 1) 0

/-- Node `buffer.readUInt32BE(i)`: big-endian 32-bit read at offset `i`. -/
def readUInt32BE (data : List Nat) (i : Nat) : Nat :=
  16777216 * data.getD i 0 + 65536 * data.getD (i + 1) 0 +
    256 * data.getD (i + 2) 0 + data.getD (i + 3) 0

/-- Node `buffer.readUIntBE(i, 3)`: big-endian 24-bit read at offset `i`. -/
def readUInt24BE (data : List Nat) (i : Nat) : Nat :=
  65536 * data.getD i 0 + 256 * data.getD (i + 1) 0 + data.getD (i + 2) 0

/-- The 256-entry CRC-ITU table `crctab16` from `src/unnamed/part_000`
(lines 1099-1129), polynomial 0x8408. -/
def crctab16 : Array Nat := #[
  0x0000, 0x1189, 0x2312, 0x329b, 0x4624, 0x57ad, 0x6536, 0x74bf, 0x8c48,
  0x9dc1, 0xaf5a, 0xbed3, 0xca6c, 0xdbe5, 0xe97e, 0xf8f7, 0x1081, 0x0108,
  0x3393, 0x221a, 0x56a5, 0x472c, 0x75b7, 0x643e, 0x9cc9, 0x8d40, 0xbfdb,
  0xae52, 0xdaed, 0xcb64, 0xf9ff, 0xe876, 0x2102, 0x308b, 0x0210, 0x1399,
  0x6726, 0x76af, 0x4434, 0x55bd, 0xad4a, 0xbcc3, 0x8e58, 0x9fd1, 0xeb6e,
  0xfae7, 0xc87c, 0xd9f5, 0x3183, 0x200a, 0x1291, 0x0318, 0x77a7, 0x662e,
  0x54b5, 0x453c, 0xbdcb, 0xac42, 0x9ed9, 0x8f50, 0xfbef, 0xea66, 0xd8fd,
  0xc974, 0x4204, 0x538d, 0x6116, 0x709f, 0x0420, 0x15a9, 0x2732, 0x36bb,
  0xce4c, 0xdfc5, 0xed5e, 0xfcd7, 0x8868, 0x99e1, 0xab7a, 0xbaf3, 0x5285,
  0x430c, 0x7197, 0x601e, 0x14a1, 0x0528, 0x37b3, 0x263a, 0xdecd, 0xcf44,
  0xfddf, 0xec56, 0x98e9, 0x8960, 0xbbfb, 0xaa72, 0x6306, 0x728f, 0x4014,
  0x519d, 0x2522, 0x34ab, 0x0630, 0x17b9, 0xef4e, 0xfec7, 0xcc5c, 0xddd5,
  0xa96a, 0xb8e3, 0x8a78, 0x9bf1, 0x7387, 0x620e, 0x5095, 0x411c, 0x35a3,
  0x242a, 0x16b1, 0x0738, 0xffcf, 0xee46, 0xdcdd, 0xcd54, 0xb9eb, 0xa862,
  0x9af9, 0x8b70, 0x8408, 0x9581, 0xa71a, 0xb693, 0xc22c, 0xd3a5, 0xe13e,
  0xf0b7, 0x0840, 0x19c9, 0x2b52, 0x3adb, 0x4e64, 0x5fed, 0x6d76, 0x7cff,
  0x9489, 0x8500, 0xb79b, 0xa612, 0xd2ad, 0xc324, 0xf1bf, 0xe036, 0x18c1,
  0x0948, 0x3bd3, 0x2a5a, 0x5ee5, 0x4f6c, 0x7df7, 0x6c7e, 0xa50a, 0xb483,
  0x8618, 0x9791, 0xe32e, 0xf2a7, 0xc03c, 0xd1b5, 0x2942, 0x38cb, 0x0a50,
  0x1bd9, 0x6f66, 0x7eef, 0x4c74, 0x5dfd, 0xb58b, 0xa402, 0x9699, 0x8710,
  0xf3af, 0xe226, 0xd0bd, 0xc134, 0x39c3, 0x284a, 0x1ad1, 0x0b58, 0x7fe7,
  0x6e6e, 0x5cf5, 0x4d7c, 0xc60c, 0xd785, 0xe51e, 0xf497, 0x8028, 0x91a1,
  0xa33a, 0xb2b3, 0x4a44, 0x5bcd, 0x6956, 0x78df, 0x0c60, 0x1de9, 0x2f72,
  0x3efb, 0xd68d, 0xc704, 0xf59f, 0xe416, 0x90a9, 0x8120, 0xb3bb, 0xa232,
  0x5ac5, 0x4b4c, 0x79d7, 0x685e, 0x1ce1, 0x0d68, 0x3ff3, 0x2e7a, 0xe70e,
  0xf687, 0xc41c, 0xd595, 0xa12a, 0xb0a3, 0x8238, 0x93b1, 0x6b46, 0x7acf,
  0x4854, 0x59dd, 0x2d62, 0x3ceb, 0x0e70, 0x1ff9, 0xf78f, 0xe606, 0xd49d,
  0xc514, 0xb1ab, 0xa022, 0x92b9, 0x8330, 0x7bc7, 0x6a4e, 0x58d5, 0x495c,
  0x3de3, 0x2c6a, 0x1ef1, 0x0f78]

/-- One step of the CRC-ITU loop:
`fcs = (fcs >> 8) ^ crctab16[(fcs ^ data[i]) & 0xff]`. -/
def crcStep (fcs b : Nat) : Nat :=
  (fcs >>> 8) ^^^ crctab16.getD ((fcs ^^^ b) &&& 0xff) 0

/-- The function `calculateCRCITU(data, startIndex, endIndex)` from
`src/unnamed/part_000` lines 1097-1139: iterate `crcStep` over
`data[startIndex .. endIndex)` from the initial register 0xffff and
return the complement `~fcs & 0xffff` (the register always stays below
0x10000, so the JS expression equals `fcs XOR 0xffff`). -/
def calculateCRCITU (data : List Nat) (startIndex endIndex : Nat) : Nat :=
  let fcs := ((data.take endIndex).drop startIndex).foldl crcStep 0xffff
  fcs ^^^ 0xffff

/-- The helper `isLongPacket` from `src/packages/shared` parser: start
bytes `0x79 0x79`. -/
def isLongPacket (packet : List Nat) : Bool :=
  packet.getD 0 0 == 0x79 && packet.getD 1 0 == 0x79

/-- The helper `getHeaderSize` from `src/packages/shared` parser: 4 for
long packets, 3 for short ones. -/
def getHeaderSize (packet : List Nat) : Nat :=
  if isLongPacket packet then 4 else 3

/-- Result object of one `parsePacket` call
(`src/packages/shared` parser, lines 74-141 of the region embedded in
`src/packages/protocols/command-response.js`): the JS object
`{ packet, protocolNumber, remaining }`.  The fields `packet` and
`protocolNumber` are null exactly on a resynchronisation step.  A null
overall return (incomplete buffer) is modelled by `Option.none` around
the whole structure. -/
structure ParseStep where
  packet : Option (List Nat)
  protocolNumber : Option Nat
  remaining : List Nat
deriving Repr, DecidableEq

/-- Index of the first 0x78 or 0x79 byte of a list, if any. -/
def firstSyncIdx : List Nat → Option Nat
  | [] => none
  | b :: rest =>
      if b = 0x78 ∨ b = 0x79 then some 0
      else (firstSyncIdx rest).map (· + 1)

/-- The resynchronisation scan of `parsePacket`: the JS code takes the
minimum of `buffer.indexOf(0x78, 1)` and `buffer.indexOf(0x79, 1)`
(ignoring misses), which is the first index at or after 1 holding either
sync byte. -/
def nextStartIndex (buffer : List Nat) : Option Nat :=
  (firstSyncIdx (buffer.drop 1)).map (· + 1)

/-- Shared tail of both framed branches of `parsePacket` (lines
119-140): compute the total size `headerSize + lengthValue + 2`, demand
that many bytes, and slice out the frame.  The stop-byte verification of
lines 131-134 only logs a warning and does not change the result, so it
has no counterpart here. -/
def parseFrame (headerSize lengthValue : Nat) (buffer : List Nat) : Option ParseStep :=
  if buffer.length < headerSize + lengthValue + 2 then none
  else
    some ⟨some (buffer.take (headerSize + lengthValue + 2)),
      some (buffer.getD headerSize 0),
      buffer.drop (headerSize + lengthValue + 2)⟩

/-- The frame codec `parsePacket(buffer)` of `src/packages/shared`
parser (embedded at `src/packages/protocols/command-response.js` lines
74-141): need at least 5 bytes; start `0x78 0x78` gives a 1-byte length
at offset 2; start `0x79 0x79` needs 6 bytes and a big-endian 2-byte
length at offset 2; any other start resynchronises to the next 0x78/0x79
at index at least 1, or drops the whole buffer when none exists. -/
def parsePacket (buffer : List Nat) : Option ParseStep :=
  if buffer.length < 5 then none
  else if buffer.getD 0 0 = 0x78 ∧ buffer.getD 1 0 = 0x78 then
    parseFrame 3 (buffer.getD 2 0) buffer
  else if buffer.getD 0 0 = 0x79 ∧ buffer.getD 1 0 = 0x79 then
    if buffer.length < 6 then none
    else parseFrame 4 (readUInt16BE buffer 2) buffer
  else
    match nextStartIndex buffer with
    | none => some ⟨none, none, []⟩
    | some i => some ⟨none, none, buffer.drop i⟩

/-- One dispatched frame: the sliced packet bytes together with the
protocol number, as handed by the `handleConnection` data loop to
`handlePacket` (which returns immediately when `packet` is null). -/
abbrev Frame := List Nat × Nat

/-- Frames emitted for one `parsePacket` result: one for a frame step,
none for a resync step. -/
def stepFrames (s : ParseStep) : List Frame :=
  match s.packet, s.protocolNumber with
  | some p, some n => [(p, n)]
  | _, _ => []

/-- The `while (buffer.length > 0)` loop of `handleConnection`
(`src/unnamed/part_010` lines 90-105): call `parsePacket`, stop on a
null result, otherwise dispatch the frame (if any) and continue on the
remaining bytes.  The loop is written with explicit fuel; fuel
`buffer.length` always suffices because every non-null `parsePacket`
result strictly shrinks the buffer (`parsePacket_progress`). -/
def processBufferFuel : Nat → List Nat → List Frame × List Nat
  | 0, buffer => ([], buffer)
  | fuel + 1, buffer =>
      if buffer.length = 0 then ([], buffer)
      else
        match parsePacket buffer with
        | none => ([], buffer)
        | some s =>
            let r := processBufferFuel fuel s.remaining
            (stepFrames s ++ r.1, r.2)

/-- Run the dispatch loop of `handleConnection` to completion on a
buffer. -/
def processBuffer (buffer : List Nat) : List Frame × List Nat :=
  processBufferFuel buffer.length buffer

/-- Feed a sequence of TCP chunks through the `socket.on("data")`
handler of `handleConnection`: each chunk is appended to the carry-over
buffer and the dispatch loop runs to completion; the frames of all
chunks are collected in order. -/
def feedAllFrom (st : List Nat) : List (List Nat) → List Frame × List Nat
  | [] => ([], st)
  | c :: cs =>
      let r := processBuffer (st ++ c)
      let rest := feedAllFrom r.2 cs
      (r.1 ++ rest.1, rest.2)

/-- Feed a chunked byte stream to a fresh connection. -/
def feedAll (chunks : List (List Nat)) : List Frame × List Nat :=
  feedAllFrom [] chunks

/-- The login acknowledgment builder `createLoginAck(serialNumber)` from
`src/unnamed/part_004` lines 18-32: frame
`78 78 05 01 seq_hi seq_lo crc_hi crc_lo 0d 0a` with the CRC taken over
indices 2 to 6. -/
def createLoginAck (serialNumber : Nat) : List Nat :=
  let buffer : List Nat :=
    [0x78, 0x78, 0x05, 0x01, (serialNumber >>> 8) &&& 0xff, serialNumber &&& 0xff]
  let crc := calculateCRCITU buffer 2 6
  buffer ++ [(crc >>> 8) &&& 0xff, crc &&& 0xff] ++ [0x0d, 0x0a]

/-- The identifier decoder `extractIMEI(imeiBytes)` from
`src/packages/protocols/command-response.js` lines 169-184.  The JS
code hex-encodes each byte with `toString(16).padStart(2, "0")`, strips
leading `"0"` characters and truncates to 15 characters; for bytes below
256 the two hex characters of byte `b` have digit values `b / 16` and
`b % 16`, so the hex string is modelled as the list of its digit
values. -/
def extractIMEI (imeiBytes : List Nat) : List Nat :=
  let imei := (imeiBytes.map (fun b => [b / 16, b % 16])).flatten
  let imei := imei.dropWhile (· == 0)
  if 15 < imei.length then imei.take 15 else imei

/-- Spec-side inverse used by claim C7 ("encoding it into 8
binary-coded-decimal bytes with leading zero-padding"): pack a nibble
list two to a byte. -/
def toBCDBytes : List Nat → List Nat
  | d1 :: d2 :: rest => (d1 * 16 + d2) :: toBCDBytes rest
  | _ => []

/-- Spec-side encoder for claim C7: a 15-digit identifier is padded with
one leading zero nibble and packed into 8 BCD bytes. -/
def encodeIMEI (digits : List Nat) : List Nat :=
  toBCDBytes (0 :: digits)

/-- Date-time sextuplet shared by the location, alarm and WiFi parsers:
`{ year: 2000 + byte, month, day, hour, minute, second }`. -/
structure GPSDateTime where
  year : Nat
  month : Nat
  day : Nat
  hour : Nat
  minute : Nat
  second : Nat
deriving Repr, DecidableEq

/-- Cell block of the 0x22 location frame. -/
structure LBSInfo where
  mcc : Nat
  mnc : Nat
  lac : Nat
  cellId : Nat
deriving Repr, DecidableEq

/-- Parsed result object of `parseGPSLocation`. -/
structure GPSLocation where
  datetime : GPSDateTime
  satellites : Nat
  latitude : ℚ
  longitude : ℚ
  speed : Nat
  course : Nat
  gpsPositioned : Bool
  lbs : LBSInfo
  acc : Option Nat
  dataUploadMode : Option Nat
  mileage : Option Nat
deriving Repr, DecidableEq

/-- The GPS location parser `parseGPSLocation(packet)` from
`src/packages/protocols/gps.js` lines 7-68.  Coordinates are exact
rationals `raw / 1800000` with the sign applied from the course-status
upper byte exactly as in the source (`latitudeNS`, `longitudeEW`
strings included); the JS nulls for the optional trailing fields are
`Option.none`. -/
def parseGPSLocation (packet : List Nat) : GPSLocation :=
  let headerSize := getHeaderSize packet
  let dataStart := headerSize + 1
  let datetime : GPSDateTime :=
    ⟨2000 + packet.getD dataStart 0, packet.getD (dataStart + 1) 0,
      packet.getD (dataStart + 2) 0, packet.getD (dataStart + 3) 0,
      packet.getD (dataStart + 4) 0, packet.getD (dataStart + 5) 0⟩
  let gpsInfo := packet.getD (dataStart + 6) 0
  let satellites := gpsInfo &&& 0x0F
  let latitude : ℚ := (readUInt32BE packet (dataStart + 7) : ℚ) / 1800000
  let longitude : ℚ := (readUInt32BE packet (dataStart + 11) : ℚ) / 1800000
  let speed := packet.getD (dataStart + 15) 0
  let courseStatus := readUInt16BE packet (dataStart + 16)
  let byte1 := (courseStatus >>> 8) &&& 0xFF
  let byte2 := courseStatus &&& 0xFF
  let course := ((byte1 &&& 0x03) <<< 8) ||| byte2
  let gpsPositioned := byte1 &&& 0x10 != 0
  let latitudeNS := if byte1 &&& 0x04 ≠ 0 then "S" else "N"
  let longitudeEW := if byte1 &&& 0x08 ≠ 0 then "W" else "E"
  let finalLatitude := if latitudeNS = "S" then -latitude else latitude
  let finalLongitude := if longitudeEW = "W" then -longitude else longitude
  let mcc := readUInt16BE packet (dataStart + 18)
  let mnc := packet.getD (dataStart + 20) 0
  let lac := readUInt16BE packet (dataStart + 21)
  let cellId := readUInt24BE packet (dataStart + 23)
  let acc := if dataStart + 30 ≤ packet.length then
    some (packet.getD (dataStart + 26) 0) else none
  let dataUploadMode := if dataStart + 30 ≤ packet.length then
    some (packet.getD (dataStart + 27) 0) else none
  let mileage := if dataStart + 33 ≤ packet.length then
    some (readUInt32BE packet (packet.length - 10)) else none
  ⟨datetime, satellites, finalLatitude, finalLongitude, speed, course,
    gpsPositioned, ⟨mcc, mnc, lac, cellId⟩, acc, dataUploadMode, mileage⟩

/-- JS `Number(x.toFixed(6))` modelled as exact rounding to 6 decimal
places (the source's double formatting is approximated by exact decimal
rounding; it never changes the sign). -/
def roundTo6 (x : ℚ) : ℚ := (round (x * 1000000) : ℚ) / 1000000

/-- GPS block of the HVT001 alarm parser. -/
structure HVT001GPSData where
  rawLat : Nat
  rawLon : Nat
  latitude : ℚ
  longitude : ℚ
  speed : Nat
  course : Nat
  satellites : Nat
  positioned : Bool
  statusByte : Nat
deriving Repr, DecidableEq

/-- LBS block of the HVT001 alarm parser (source field `length` is
`lbsLength` here). -/
structure HVT001LBS where
  lbsLength : Nat
  mcc : Nat
  mnc : Nat
  lac : Nat
  ci : Nat
deriving Repr, DecidableEq

/-- Terminal-info triple read near the end of an HVT001 alarm frame. -/
structure HVT001TerminalInfo where
  terminalByte : Nat
  battery : Nat
  gsm : Nat
deriving Repr, DecidableEq

/-- Parsed result object of `parseAlarmHVT001`. -/
structure HVT001Alarm where
  datetime : GPSDateTime
  gpsData : Option HVT001GPSData
  lbs : Option HVT001LBS
  alarmByte : Option Nat
  serialNumber : Option Nat
  terminalInfo : Option HVT001TerminalInfo
deriving Repr, DecidableEq

/-- The HVT001 alarm parser `parseAlarmHVT001(packet)` from
`src/packages/protocols/heartbeat.js` lines 119-274 (the copy with the
documented sign convention, imported by the server as
`alarm-hvt001.js`).  The datetime is kept structured instead of the
formatted string, the alarm type string table is represented by the raw
`alarmByte`, and JS `undefined`, `null` and the empty `terminalInfo`
object are all `Option.none`; the GPS guard
`gpsInfoLen > 0 && satellites > 0 && packet.length >= gpsInfoIndex + 1 + 4 + 4 + 1 + 2`
and every read offset follow the source line by line. -/
def parseAlarmHVT001 (packet : List Nat) : HVT001Alarm :=
  let headerSize := getHeaderSize packet
  let dataStart := headerSize + 1
  let datetime : GPSDateTime :=
    ⟨2000 + packet.getD dataStart 0, packet.getD (dataStart + 1) 0,
      packet.getD (dataStart + 2) 0, packet.getD (dataStart + 3) 0,
      packet.getD (dataStart + 4) 0, packet.getD (dataStart + 5) 0⟩
  let gpsInfoIndex := dataStart + 6
  let gpsInfo := packet.getD gpsInfoIndex 0
  let gpsInfoLen := gpsInfo >>> 4
  let satellites := gpsInfo &&& 0x0f
  let hasGPS := gpsInfoIndex < packet.length ∧ 0 < gpsInfoLen ∧ 0 < satellites ∧
    gpsInfoIndex + 12 ≤ packet.length
  let latIndex := gpsInfoIndex + 1
  let lonIndex := latIndex + 4
  let speedIndex := lonIndex + 4
  let courseIndex := speedIndex + 1
  let rawLat := readUInt32BE packet latIndex
  let rawLon := readUInt32BE packet lonIndex
  let speed := packet.getD speedIndex 0
  let courseStatus := readUInt16BE packet courseIndex
  let byte1 := (courseStatus >>> 8) &&& 0xff
  let byte2 := courseStatus &&& 0xff
  let course := ((byte1 &&& 0x03) <<< 8) ||| byte2
  let gpsPositioned := byte1 &&& 0x10 != 0
  let longitudePositive := byte1 &&& 0x08 = 0
  let latitudePositive := byte1 &&& 0x04 ≠ 0
  let latitude := (rawLat : ℚ) / 1800000 * (if latitudePositive then 1 else -1)
  let longitude := (rawLon : ℚ) / 1800000 * (if longitudePositive then 1 else -1)
  let gpsData : Option HVT001GPSData :=
    if hasGPS then
      some ⟨rawLat, rawLon, roundTo6 latitude, roundTo6 longitude, speed, course,
        satellites, gpsPositioned, byte1⟩
    else none
  let lbsStart := courseIndex + 2
  let lbsLen := packet.getD lbsStart 0
  let lbs : Option HVT001LBS :=
    if hasGPS ∧ lbsStart < packet.length ∧ lbsStart + 1 + lbsLen ≤ packet.length then
      some ⟨lbsLen, readUInt16BE packet (lbsStart + 1), packet.getD (lbsStart + 3) 0,
        readUInt16BE packet (lbsStart + 4),
        ((packet.getD (lbsStart + 6) 0) <<< 16) |||
          ((packet.getD (lbsStart + 7) 0) <<< 8) ||| packet.getD (lbsStart + 8) 0⟩
    else none
  let alarmByte := if 8 ≤ packet.length then
    some (packet.getD (packet.length - 8) 0) else none
  let serialNumber := if 6 ≤ packet.length then
    some (readUInt16BE packet (packet.length - 6)) else none
  let terminalInfo : Option HVT001TerminalInfo :=
    if lbs.isSome ∧ gpsData.isSome ∧ 12 < packet.length then
      some ⟨packet.getD (packet.length - 12) 0, packet.getD (packet.length - 11) 0,
        packet.getD (packet.length - 10) 0⟩
    else none
  ⟨datetime, gpsData, lbs, alarmByte, serialNumber, terminalInfo⟩

/-- Concrete 0x22 GPS location frame used to exercise
`parseGPSLocation`: fixed date, speed and cell bytes; the raw coordinate
bytes and the two course-status bytes are parameters. -/
def mkGPS22Packet (la0 la1 la2 la3 lo0 lo1 lo2 lo3 b1 b2 : Nat) : List Nat :=
  [0x78, 0x78, 0x1F, 0x22,
   26, 2, 9, 6, 11, 20,
   0xCB,
   la0, la1, la2, la3,
   lo0, lo1, lo2, lo3,
   0x28,
   b1, b2,
   0x01, 0x94, 0x01, 0x4E, 0xB8, 0x00, 0x08, 0x69,
   0x00, 0x01,
   0x8C, 0xDD,
   0x0D, 0x0A]

/-- Concrete 0x27 HVT001 alarm frame with a populated GPS block
(`gpsInfo = 0xCB`: info length 12, 11 satellites) used to exercise
`parseAlarmHVT001`; raw coordinate and course-status bytes are
parameters. -/
def mkHVT001Packet (la0 la1 la2 la3 lo0 lo1 lo2 lo3 b1 b2 : Nat) : List Nat :=
  [0x78, 0x78, 0x25, 0x27,
   26, 2, 9, 6, 11, 20,
   0xCB,
   la0, la1, la2, la3,
   lo0, lo1, lo2, lo3,
   0x28,
   b1, b2,
   0x08,
   0x01, 0x94, 0x01, 0x4E, 0xB8, 0x08, 0x69, 0x77,
   0x47, 0x06, 0x04,
   0x02,
   0x01,
   0x00, 0x10,
   0x00, 0x00,
   0x0D, 0x0A]

/-- Main cell record of the WiFi parser (`cellId` is kept numeric; the
source renders it as zero-padded upper-case hex). -/
structure WiFiMainBase where
  mcc : Nat
  mnc : Nat
  lac : Nat
  cellId : Nat
  rssi : Nat
deriving Repr, DecidableEq

/-- Neighbor cell record of the WiFi parser. -/
structure WiFiNeighbor where
  index : Nat
  lac : Nat
  cellId : Nat
  rssi : Nat
deriving Repr, DecidableEq

/-- Access-point record of the WiFi parser: the MAC is kept as its 6 raw
bytes (the source renders them as colon-joined upper-case hex pairs) and
the SSID as its raw bytes (the source decodes UTF-8). -/
structure WiFiAP where
  index : Nat
  macBytes : List Nat
  signal : Int
  signalStrength : Nat
  ssidLength : Nat
  ssid : List Nat
deriving Repr, DecidableEq

/-- Parsed result object of `parseWiFi`. -/
structure WiFiData where
  datetimeRaw : GPSDateTime
  mainBase : WiFiMainBase
  neighbors : List WiFiNeighbor
  timeLeads : Nat
  wifiCount : Nat
  accessPoints : List WiFiAP
  serialNumber : Nat
deriving Repr, DecidableEq

/-- Neighbor-cell loop of `parseWiFi` (lines 137-146): up to 6 neighbor
records of 6 bytes each at `dataStart + 15 + i * 6`, stopping as soon as
a record would cross `serialStart`.  `n` counts the remaining
iterations (starting from 6), `i` the current index. -/
def parseWiFiNeighbors (packet : List Nat) (dataStart serialStart : Nat) :
    Nat → Nat → List WiFiNeighbor
  | 0, _ => []
  | n + 1, i =>
      if serialStart < dataStart + 15 + i * 6 + 6 then []
      else
        ⟨i + 1, readUInt16BE packet (dataStart + 15 + i * 6),
          readUInt24BE packet (dataStart + 15 + i * 6 + 2),
          packet.getD (dataStart + 15 + i * 6 + 5) 0⟩ ::
          parseWiFiNeighbors packet dataStart serialStart n (i + 1)

/-- Access-point loop of `parseWiFi` (lines 152-176): while the AP count
is not exhausted and a MAC-strength-length record of 8 bytes still fits
before `serialStart`, read MAC (6), strength (1, signal reported as the
JS expression `strength > 128 ? strength - 256 : strength`), SSID length
(1, capped at 32) and the SSID bytes; the offset then advances by
`8 + ssidLength`. -/
def parseWiFiAPs (packet : List Nat) (serialStart : Nat) :
    Nat → Nat → Nat → List WiFiAP
  | 0, _, _ => []
  | n + 1, offset, i =>
      if offset + 8 ≤ serialStart then
        let strength := packet.getD (offset + 6) 0
        let ssidLength := min (packet.getD (offset + 7) 0) 32
        let signal : Int :=
          if 128 < strength then (strength : Int) - 256 else (strength : Int)
        ⟨i + 1, (packet.drop offset).take 6, signal, signal.natAbs, ssidLength,
          if 0 < ssidLength ∧ offset + 8 + ssidLength ≤ serialStart then
            (packet.drop (offset + 8)).take ssidLength
          else []⟩ ::
          parseWiFiAPs packet serialStart n (offset + 8 + ssidLength) (i + 1)
      else []

/-- The WiFi parser `parseWiFi(packet)` from
`src/packages/protocols/external-device.js` lines 112-189: date (6),
main cell (9), six neighbor cells (6 each), time leads (1), AP count
(1), then the AP records, with the serial number read at
`packet.length - 6`. -/
def parseWiFi (packet : List Nat) : WiFiData :=
  let headerSize := getHeaderSize packet
  let dataStart := headerSize + 1
  let serialStart := packet.length - 6
  let datetime : GPSDateTime :=
    ⟨2000 + packet.getD dataStart 0, packet.getD (dataStart + 1) 0,
      packet.getD (dataStart + 2) 0, packet.getD (dataStart + 3) 0,
      packet.getD (dataStart + 4) 0, packet.getD (dataStart + 5) 0⟩
  let mainBase : WiFiMainBase :=
    ⟨readUInt16BE packet (dataStart + 6), packet.getD (dataStart + 8) 0,
      readUInt16BE packet (dataStart + 9), readUInt24BE packet (dataStart + 11),
      packet.getD (dataStart + 14) 0⟩
  let neighbors := parseWiFiNeighbors packet dataStart serialStart 6 0
  let timeLeads := packet.getD (dataStart + 51) 0
  let wifiCount := packet.getD (dataStart + 52) 0
  let accessPoints := parseWiFiAPs packet serialStart wifiCount (dataStart + 53) 0
  let serialNumber := readUInt16BE packet serialStart
  ⟨datetime, mainBase, neighbors, timeLeads, wifiCount, accessPoints, serialNumber⟩

/-- Concrete 0x2C WiFi frame with a single access point whose strength
byte is the parameter `b`: date, LBS block and MAC fixed, SSID empty. -/
def mkWiFiPacket (b : Nat) : List Nat :=
  [0x78, 0x78, 0x42, 0x2C,
   26, 2, 9, 6, 11, 20,
   0x01, 0x94,
   0x01,
   0x4E, 0xB8,
   0x08, 0x69, 0x77,
   0x50,
   0x00, 0x01, 0x00, 0x00, 0x01, 0x1E,
   0x00, 0x02, 0x00, 0x00, 0x02, 0x1E,
   0x00, 0x03, 0x00, 0x00, 0x03, 0x1E,
   0x00, 0x04, 0x00, 0x00, 0x04, 0x1E,
   0x00, 0x05, 0x00, 0x00, 0x05, 0x1E,
   0x00, 0x06, 0x00, 0x00, 0x06, 0x1E,
   0x01,
   0x01,
   0xAA, 0xBB, 0xCC, 0xDD, 0xEE, 0xFF,
   b,
   0x00,
   0x00, 0x21,
   0x00, 0x00,
   0x0D, 0x0A]

/-- ASCII bytes of the command string STATUS#. -/
def statusCommand : List Nat := [0x53, 0x54, 0x41, 0x54, 0x55, 0x53, 0x23]

/-- Packet-building part of `sendCommand(imei, command)` from
`src/unnamed/part_010` lines 665-780 (the 0x80 online-command encoder):
`commandLength = serverFlag(4) + command + language(2)` and
`packetLength = protocol(1) + commandLength byte(1) + content + serial(2) + crc(2)`;
short framing `78 78` with a 1-byte length field when
`packetLength < 256`, otherwise long framing `79 79` with a 2-byte
big-endian length field; the CRC runs from index 2 through the serial
number.  The `&&& 0xff` masks mirror `Buffer.from` storing the low byte
of each entry. -/
def sendCommandPacket (command : List Nat) (serialNumber : Nat) : List Nat :=
  let serverFlag : List Nat := [0x00, 0x00, 0x00, 0x00]
  let language : List Nat := [0x00, 0x02]
  let commandLength := 4 + command.length + 2
  let packetLength := 1 + 1 + commandLength + 2 + 2
  if packetLength < 256 then
    let buffer : List Nat := [0x78, 0x78, packetLength, 0x80, commandLength]
    let dataBeforeCRC := buffer ++ serverFlag ++ command ++ language ++
      [(serialNumber >>> 8) &&& 0xff, serialNumber &&& 0xff]
    let crc := calculateCRCITU dataBeforeCRC 2 dataBeforeCRC.length
    dataBeforeCRC ++ [(crc >>> 8) &&& 0xff, crc &&& 0xff] ++ [0x0d, 0x0a]
  else
    let buffer : List Nat := [0x79, 0x79, (packetLength >>> 8) &&& 0xff,
      packetLength &&& 0xff, 0x80, commandLength &&& 0xff]
    let dataBeforeCRC := buffer ++ serverFlag ++ command ++ language ++
      [(serialNumber >>> 8) &&& 0xff, serialNumber &&& 0xff]
    let crc := calculateCRCITU dataBeforeCRC 2 dataBeforeCRC.length
    dataBeforeCRC ++ [(crc >>> 8) &&& 0xff, crc &&& 0xff] ++ [0x0d, 0x0a]

/-- Packet-building part of the duplicate `sendCommand` in
`src/packages/server/index.js` lines 519-592 (identical in
`src/unnamed/part_000` lines 884-946): this copy declares
`commandLength + 5` in the length field and selects the framing by
`commandLength < 256`. -/
def sendCommandPacketServer (command : List Nat) (serialNumber : Nat) : List Nat :=
  let serverFlag : List Nat := [0x00, 0x00, 0x00, 0x00]
  let language : List Nat := [0x00, 0x02]
  let commandLength := 4 + command.length + 2
  if commandLength < 256 then
    let buffer : List Nat :=
      [0x78, 0x78, (commandLength + 5) &&& 0xff, 0x80, commandLength]
    let packet := buffer ++ serverFlag ++ command ++ language ++
      [(serialNumber >>> 8) &&& 0xff, serialNumber &&& 0xff]
    let crc := calculateCRCITU packet 2 packet.length
    packet ++ [(crc >>> 8) &&& 0xff, crc &&& 0xff] ++ [0x0d, 0x0a]
  else
    let totalLength := commandLength + 5
    let buffer : List Nat := [0x79, 0x79, (totalLength >>> 8) &&& 0xff,
      totalLength &&& 0xff, 0x80, commandLength &&& 0xff]
    let packet := buffer ++ serverFlag ++ command ++ language ++
      [(serialNumber >>> 8) &&& 0xff, serialNumber &&& 0xff]
    let crc := calculateCRCITU packet 2 packet.length
    packet ++ [(crc >>> 8) &&& 0xff, crc &&& 0xff] ++ [0x0d, 0x0a]

/-- One pending-command record of the per-socket `pendingCommands` map:
`{ command, sentAt, imei }` (`src/unnamed/part_010` lines 761-765). -/
structure PendingCommand where
  command : String
  sentAt : Nat
  imei : String
deriving Repr, DecidableEq

/-- The per-socket `pendingCommands` JS Map, keyed by the 16-bit serial
number; modelled as an association list kept free of duplicate keys. -/
abbrev PendingMap := List (Nat × PendingCommand)

/-- JS `pendingCommands.get(serial)`. -/
def pendingGet (m : PendingMap) (serial : Nat) : Option PendingCommand :=
  List.lookup serial m

/-- JS `pendingCommands.delete(serial)`. -/
def pendingDelete (m : PendingMap) (serial : Nat) : PendingMap :=
  m.filter (fun e => e.1 != serial)

/-- JS `pendingCommands.set(serial, v)` (replaces any previous entry). -/
def pendingSet (m : PendingMap) (serial : Nat) (v : PendingCommand) : PendingMap :=
  (serial, v) :: pendingDelete m serial

/-- Log events emitted by the command-correlation code paths. -/
inductive CommandEvent where
  | matched (originalCommand : String) (responseDelayMs : Nat)
  | unmatched
  | timeout (command : String)
deriving Repr, DecidableEq

/-- Matching logic shared by `handleCommandResponse` (0x21) and
`handleCommandResponseJM01` (0x15) in `src/unnamed/part_010` lines
406-524: look the response serial up in the pending map; on a hit emit
exactly one matched event carrying the observed latency
(`responseTime - sentAt`) and delete the entry, otherwise emit an
unmatched event ("No matching pending command found"). -/
def handleCommandResponseMatch (pending : PendingMap) (serial now : Nat) :
    List CommandEvent × PendingMap :=
  match pendingGet pending serial with
  | some mc =>
      ([.matched mc.command (now - mc.sentAt)], pendingDelete pending serial)
  | none => ([.unmatched], pending)

/-- Pending-entry recording of `sendCommand` (lines 757-765):
`pendingCommands.set(serialNumber, { command, sentAt, imei })`. -/
def recordPendingCommand (pending : PendingMap) (serial : Nat)
    (command imei : String) (now : Nat) : PendingMap :=
  pendingSet pending serial ⟨command, now, imei⟩

/-- Body of the 60-second cleanup timer armed by `sendCommand` (lines
767-777): if the serial is still pending, emit one timeout event and
delete the entry; otherwise do nothing. -/
def commandTimeoutFire (pending : PendingMap) (serial : Nat) (command : String) :
    List CommandEvent × PendingMap :=
  if (pendingGet pending serial).isSome then
    ([.timeout command], pendingDelete pending serial)
  else ([], pending)

/-- The `clients` JS Map of the server (device identifier to socket
info), modelled as an association list from identifier to a session id
standing for the socket object. -/
abbrev Registry := List (String × Nat)

/-- Registry effect of `handleLogin` (`src/unnamed/part_010` lines
216-244): `clients.set(imei, ...)`, replacing any previous entry for the
identifier. -/
def handleLoginRegistry (reg : Registry) (imei : String) (sessionId : Nat) :
    Registry :=
  (imei, sessionId) :: reg.filter (fun e => e.1 != imei)

/-- Registry effect of the socket close handler
(`src/unnamed/part_010` lines 111-120, identical in
`src/packages/server/index.js` lines 111-120):
`if (socket.deviceImei) this.clients.delete(socket.deviceImei)`.  The
deletion is keyed only on the closing socket's bound identifier; there
is no check that the registry entry still points at this socket. -/
def handleCloseRegistry (reg : Registry) (deviceImei : Option String) : Registry :=
  match deviceImei with
  | some imei => reg.filter (fun e => e.1 != imei)
  | none => reg

/-! ### Codec lemmas: progress, fuel and extension -/

theorem firstSyncIdx_lt_length {xs : List Nat} {j : Nat}
    (h : firstSyncIdx xs = some j) : j < xs.length := by
  induction xs generalizing j with
  | nil => simp [firstSyncIdx] at h
  | cons b rest ih =>
      by_cases hb : b = 0x78 ∨ b = 0x79
      · simp only [firstSyncIdx, if_pos hb, Option.some.injEq] at h
        simp [← h]
      · simp only [firstSyncIdx, if_neg hb, Option.map_eq_some'] at h
        obtain ⟨a, ha, rfl⟩ := h
        have := ih ha
        simp only [List.length_cons]
        omega

theorem nextStartIndex_bounds {buffer : List Nat} {i : Nat}
    (h : nextStartIndex buffer = some i) : 1 ≤ i ∧ i < buffer.length := by
  unfold nextStartIndex at h
  simp only [Option.map_eq_some'] at h
  obtain ⟨j, hj, rfl⟩ := h
  have := firstSyncIdx_lt_length hj
  simp only [List.length_drop] at this
  omega

theorem parseFrame_progress {hs lv : Nat} {buffer : List Nat} {s : ParseStep}
    (h : parseFrame hs lv buffer = some s) (h5 : 5 ≤ hs + lv + 2) :
    s.remaining.length < buffer.length ∧ s.remaining.length + 5 ≤ buffer.length ∧
      s.packet ≠ none := by
  unfold parseFrame at h
  split at h
  · exact absurd h (by simp)
  next hlen =>
    injection h with h'
    subst h'
    push_neg at hlen
    refine ⟨?_, ?_, by simp⟩ <;> simp only [List.length_drop] <;> omega

/-- Progress of the codec: every non-null `parsePacket` result strictly
shrinks the buffer, and a frame step consumes at least 5 bytes. -/
theorem parsePacket_progress (buffer : List Nat) (s : ParseStep)
    (h : parsePacket buffer = some s) :
    s.remaining.length < buffer.length ∧
      (s.packet ≠ none → s.remaining.length + 5 ≤ buffer.length) := by
  unfold parsePacket at h
  split at h
  · exact absurd h (by simp)
  next h5 =>
    push_neg at h5
    split at h
    · have := parseFrame_progress h (by omega)
      exact ⟨this.1, fun _ => this.2.1⟩
    split at h
    · split at h
      · exact absurd h (by simp)
      · have := parseFrame_progress h (by omega)
        exact ⟨this.1, fun _ => this.2.1⟩
    · cases hmatch : nextStartIndex buffer with
      | none =>
          rw [hmatch] at h
          injection h with h'
          subst h'
          exact ⟨by simp; omega, by simp⟩
      | some i =>
          rw [hmatch] at h
          injection h with h'
          subst h'
          have hi := nextStartIndex_bounds hmatch
          exact ⟨by simp only [List.length_drop]; omega, by simp⟩

theorem parsePacket_short {buffer : List Nat} (h : buffer.length < 5) :
    parsePacket buffer = none := by
  unfold parsePacket
  rw [if_pos h]

theorem processBufferFuel_congr :
    ∀ fuel₁ fuel₂ buffer, buffer.length ≤ fuel₁ → buffer.length ≤ fuel₂ →
      processBufferFuel fuel₁ buffer = processBufferFuel fuel₂ buffer := by
  intro fuel₁
  induction fuel₁ with
  | zero =>
      intro fuel₂ buffer h1 _
      have hb : buffer = [] := List.length_eq_zero.mp (Nat.le_zero.mp h1)
      subst hb
      cases fuel₂ <;> simp [processBufferFuel]
  | succ n ih =>
      intro fuel₂ buffer h1 h2
      cases fuel₂ with
      | zero =>
          have hb : buffer = [] := List.length_eq_zero.mp (Nat.le_zero.mp h2)
          subst hb
          simp [processBufferFuel]
      | succ m =>
          simp only [processBufferFuel]
          by_cases hb : buffer.length = 0
          · simp [hb]
          · rw [if_neg hb, if_neg hb]
            cases hp : parsePacket buffer with
            | none => rfl
            | some s =>
                have hprog := (parsePacket_progress buffer s hp).1
                dsimp only
                rw [ih m s.remaining (by omega) (by omega)]

/-- Unfolding equation for the dispatch loop at its canonical fuel. -/
theorem processBuffer_eq (buffer : List Nat) :
    processBuffer buffer =
      match parsePacket buffer with
      | none => ([], buffer)
      | some s =>
          (stepFrames s ++ (processBuffer s.remaining).1, (processBuffer s.remaining).2) := by
  unfold processBuffer
  by_cases h0 : buffer.length = 0
  · have hb : buffer = [] := List.length_eq_zero.mp h0
    subst hb
    simp [processBufferFuel, parsePacket_short]
  · obtain ⟨n, hn⟩ : ∃ n, buffer.length = n + 1 :=
      ⟨buffer.length - 1, by omega⟩
    rw [hn]
    simp only [processBufferFuel]
    rw [if_neg h0]
    cases hp : parsePacket buffer with
    | none => rfl
    | some s =>
        have hprog := (parsePacket_progress buffer s hp).1
        dsimp only
        rw [processBufferFuel_congr n s.remaining.length s.remaining (by omega) le_rfl]

theorem firstSyncIdx_append_some {xs : List Nat} {j : Nat} (ys : List Nat)
    (h : firstSyncIdx xs = some j) : firstSyncIdx (xs ++ ys) = some j := by
  induction xs generalizing j with
  | nil => simp [firstSyncIdx] at h
  | cons b rest ih =>
      by_cases hb : b = 0x78 ∨ b = 0x79
      · simp only [firstSyncIdx, if_pos hb, Option.some.injEq] at h
        simp [firstSyncIdx, hb, h]
      · simp only [firstSyncIdx, if_neg hb, Option.map_eq_some'] at h
        obtain ⟨a, ha, rfl⟩ := h
        simp [firstSyncIdx, hb, ih ha]

theorem firstSyncIdx_append_none {xs : List Nat} (ys : List Nat)
    (h : firstSyncIdx xs = none) :
    firstSyncIdx (xs ++ ys) = (firstSyncIdx ys).map (· + xs.length) := by
  induction xs with
  | nil => simp
  | cons b rest ih =>
      by_cases hb : b = 0x78 ∨ b = 0x79
      · simp [firstSyncIdx, hb] at h
      · simp only [firstSyncIdx, if_neg hb, Option.map_eq_none'] at h
        have hcons : firstSyncIdx ((b :: rest) ++ ys) =
            (firstSyncIdx (rest ++ ys)).map (· + 1) := by
          simp only [List.cons_append, firstSyncIdx, if_neg hb]
          rfl
        rw [hcons, ih h]
        cases firstSyncIdx ys with
        | none => rfl
        | some a =>
            simp only [Option.map_some', List.length_cons]
            refine congrArg some ?_
            omega

theorem firstSyncIdx_none_not_sync {xs : List Nat} (h : firstSyncIdx xs = none) :
    ∀ x ∈ xs, ¬(x = 0x78 ∨ x = 0x79) := by
  induction xs with
  | nil => simp
  | cons b rest ih =>
      by_cases hb : b = 0x78 ∨ b = 0x79
      · simp [firstSyncIdx, hb] at h
      · simp only [firstSyncIdx, if_neg hb, Option.map_eq_none'] at h
        intro x hx
        rcases List.mem_cons.mp hx with rfl | hx
        · exact hb
        · exact ih h x hx

theorem parseFrame_extend {hs lv : Nat} {buffer : List Nat} {s : ParseStep}
    (ext : List Nat) (h : parseFrame hs lv buffer = some s) :
    parseFrame hs lv (buffer ++ ext) =
      some ⟨s.packet, s.protocolNumber, s.remaining ++ ext⟩ := by
  unfold parseFrame at h ⊢
  split at h
  · exact absurd h (by simp)
  next hlen =>
    injection h with h'
    subst h'
    push_neg at hlen
    rw [if_neg (by simp only [List.length_append]; omega)]
    refine congrArg some ?_
    have ht : (buffer ++ ext).take (hs + lv + 2) = buffer.take (hs + lv + 2) :=
      List.take_append_of_le_length hlen
    have hd : (buffer ++ ext).drop (hs + lv + 2) = buffer.drop (hs + lv + 2) ++ ext :=
      List.drop_append_of_le_length hlen
    have hg : (buffer ++ ext).getD hs 0 = buffer.getD hs 0 :=
      List.getD_append _ _ _ _ (by omega)
    rw [ht, hg, hd]

theorem getD_append_front {buffer ext : List Nat} {n : Nat} (h : n < buffer.length) :
    (buffer ++ ext).getD n 0 = buffer.getD n 0 :=
  List.getD_append _ _ _ _ h

/-- Extending the buffer to the right does not change a frame step or a
successful resync step; the new bytes are simply carried in the
remaining buffer. -/
theorem parsePacket_extend {buffer : List Nat} {s : ParseStep} (ext : List Nat)
    (h : parsePacket buffer = some s)
    (hne : s.packet ≠ none ∨ s.remaining ≠ []) :
    parsePacket (buffer ++ ext) =
      some ⟨s.packet, s.protocolNumber, s.remaining ++ ext⟩ := by
  unfold parsePacket at h
  split at h
  · exact absurd h (by simp)
  next h5 =>
    push_neg at h5
    have hg0 : (buffer ++ ext).getD 0 0 = buffer.getD 0 0 :=
      getD_append_front (by omega)
    have hg1 : (buffer ++ ext).getD 1 0 = buffer.getD 1 0 :=
      getD_append_front (by omega)
    have hlen5 : ¬((buffer ++ ext).length < 5) := by
      simp only [List.length_append]; omega
    split at h
    next hpair =>
      unfold parsePacket
      rw [if_neg hlen5, hg0, hg1, if_pos hpair]
      have hg2 : (buffer ++ ext).getD 2 0 = buffer.getD 2 0 :=
        getD_append_front (by omega)
      rw [hg2]
      exact parseFrame_extend ext h
    next hpair78 =>
      split at h
      next hpair79 =>
        split at h
        · exact absurd h (by simp)
        next h6 =>
          push_neg at h6
          unfold parsePacket
          rw [if_neg hlen5, hg0, hg1, if_neg hpair78, if_pos hpair79,
            if_neg (by simp only [List.length_append]; omega)]
          have hr : readUInt16BE (buffer ++ ext) 2 = readUInt16BE buffer 2 := by
            unfold readUInt16BE
            rw [getD_append_front (by omega), getD_append_front (by omega)]
          rw [hr]
          exact parseFrame_extend ext h
      next hpair79 =>
        cases hmatch : nextStartIndex buffer with
        | none =>
            rw [hmatch] at h
            injection h with h'
            subst h'
            simp at hne
        | some i =>
            rw [hmatch] at h
            injection h with h'
            subst h'
            have hi := nextStartIndex_bounds hmatch
            unfold parsePacket
            rw [if_neg hlen5, hg0, hg1, if_neg hpair78, if_neg hpair79]
            have hnext : nextStartIndex (buffer ++ ext) = some i := by
              unfold nextStartIndex at hmatch ⊢
              rw [List.drop_append_of_le_length (by omega)]
              simp only [Option.map_eq_some'] at hmatch
              obtain ⟨j, hj, rfl⟩ := hmatch
              rw [firstSyncIdx_append_some ext hj]
              rfl
            rw [hnext]
            refine congrArg some ?_
            simp [List.drop_append_of_le_length (le_of_lt hi.2)]

/-- Inversion of the whole-buffer-drop step: it only happens when the
buffer holds at least 5 bytes, its start pair is invalid, and no sync
byte occurs at index 1 or later. -/
theorem parsePacket_dropAll_inv {buffer : List Nat} {s : ParseStep}
    (h : parsePacket buffer = some s) (hp0 : s.packet = none)
    (hr0 : s.remaining = []) :
    5 ≤ buffer.length ∧
      ¬(buffer.getD 0 0 = 0x78 ∧ buffer.getD 1 0 = 0x78) ∧
      ¬(buffer.getD 0 0 = 0x79 ∧ buffer.getD 1 0 = 0x79) ∧
      nextStartIndex buffer = none ∧ s = ⟨none, none, []⟩ := by
  unfold parsePacket at h
  split at h
  · exact absurd h (by simp)
  next h5 =>
    push_neg at h5
    split at h
    next hpair =>
      have := (parseFrame_progress h (by omega)).2.2
      exact absurd hp0 this
    next hpair78 =>
      split at h
      next hpair79 =>
        split at h
        · exact absurd h (by simp)
        next h6 =>
          have := (parseFrame_progress h (by omega)).2.2
          exact absurd hp0 this
      next hpair79 =>
        cases hmatch : nextStartIndex buffer with
        | none =>
            rw [hmatch] at h
            injection h with h'
            subst h'
            exact ⟨h5, hpair78, hpair79, rfl, rfl⟩
        | some i =>
            rw [hmatch] at h
            injection h with h'
            subst h'
            have hi := nextStartIndex_bounds hmatch
            simp only [List.drop_eq_nil_iff] at hr0
            omega

theorem stepFrames_remaining (s : ParseStep) (r : List Nat) :
    stepFrames ⟨s.packet, s.protocolNumber, r⟩ = stepFrames s := by
  cases s
  rfl

theorem firstSyncIdx_eq_none_of_not_sync {xs : List Nat}
    (h : ∀ x ∈ xs, ¬(x = 0x78 ∨ x = 0x79)) : firstSyncIdx xs = none := by
  induction xs with
  | nil => rfl
  | cons b rest ih =>
      simp only [firstSyncIdx, if_neg (h b (by simp)),
        ih (fun x hx => h x (by simp [hx])), Option.map_none']

/-- Frames of a buffer with no sync byte at all: none, the whole buffer
is garbage. -/
theorem processBuffer_frames_syncFree {ext : List Nat}
    (h : firstSyncIdx ext = none) : (processBuffer ext).1 = [] := by
  rw [processBuffer_eq ext]
  by_cases hlen : ext.length < 5
  · rw [parsePacket_short hlen]
  · have hne : ext ≠ [] := by
      intro hc; subst hc; simp at hlen
    have hmem : ext.getD 0 0 ∈ ext := by
      cases ext with
      | nil => exact absurd rfl hne
      | cons a l => simp [List.getD]
    have hns := firstSyncIdx_none_not_sync h _ hmem
    have hnext : nextStartIndex ext = none := by
      unfold nextStartIndex
      rw [firstSyncIdx_eq_none_of_not_sync
        (fun x hx => firstSyncIdx_none_not_sync h x (List.mem_of_mem_drop hx))]
      rfl
    have hparse : parsePacket ext = some ⟨none, none, []⟩ := by
      unfold parsePacket
      rw [if_neg hlen, if_neg (fun hc => hns (Or.inl hc.1)),
        if_neg (fun hc => hns (Or.inr hc.1)), hnext]
    rw [hparse]
    simp [stepFrames, processBuffer, processBufferFuel]

/-- Frames of a buffer whose first sync byte sits at index j: the
leading garbage is skipped without emitting anything. -/
theorem processBuffer_frames_dropSync {ext : List Nat} {j : Nat}
    (h : firstSyncIdx ext = some j) :
    (processBuffer ext).1 = (processBuffer (ext.drop j)).1 := by
  cases ext with
  | nil => simp [firstSyncIdx] at h
  | cons e rest =>
      by_cases he : e = 0x78 ∨ e = 0x79
      · simp only [firstSyncIdx, if_pos he, Option.some.injEq] at h
        subst h
        rfl
      · simp only [firstSyncIdx, if_neg he, Option.map_eq_some'] at h
        obtain ⟨k, hk, rfl⟩ := h
        by_cases hlen : (e :: rest).length < 5
        · rw [processBuffer_eq, parsePacket_short hlen,
            processBuffer_eq, parsePacket_short (by
              simp only [List.length_drop]
              simp only [List.length_cons] at hlen ⊢
              omega)]
        · have hparse : parsePacket (e :: rest) = some ⟨none, none, rest.drop k⟩ := by
            unfold parsePacket
            have hg0 : (e :: rest).getD 0 0 = e := rfl
            rw [if_neg hlen, hg0,
              if_neg (fun hc => he (Or.inl hc.1)),
              if_neg (fun hc => he (Or.inr hc.1))]
            have hnext : nextStartIndex (e :: rest) = some (k + 1) := by
              unfold nextStartIndex
              simp [hk]
            rw [hnext]
            rfl
          rw [processBuffer_eq, hparse, List.drop_succ_cons]
          simp [stepFrames]

/-- Appending bytes to a buffer and rerunning the dispatch loop yields
the frames of the original buffer followed by the frames obtained from
the loop's residual buffer extended with the new bytes. -/
theorem processBuffer_frames_append :
    ∀ n buffer, buffer.length ≤ n → ∀ ext : List Nat,
      (processBuffer (buffer ++ ext)).1 =
        (processBuffer buffer).1 ++
          (processBuffer ((processBuffer buffer).2 ++ ext)).1 := by
  intro n
  induction n with
  | zero =>
      intro buffer h ext
      have hb : buffer = [] := List.length_eq_zero.mp (Nat.le_zero.mp h)
      subst hb
      simp [processBuffer, processBufferFuel]
  | succ n ih =>
      intro buffer hlen ext
      cases hp : parsePacket buffer with
      | none =>
          conv_rhs => rw [processBuffer_eq buffer, hp]
          simp
      | some s =>
          by_cases hne : s.packet ≠ none ∨ s.remaining ≠ []
          · have hext := parsePacket_extend ext hp hne
            rw [processBuffer_eq (buffer ++ ext), hext]
            conv_rhs => rw [processBuffer_eq buffer, hp]
            have hrem : s.remaining.length ≤ n := by
              have := (parsePacket_progress buffer s hp).1
              omega
            simp only []
            rw [ih s.remaining hrem ext, stepFrames_remaining,
              List.append_assoc]
          · push_neg at hne
            obtain ⟨hp0, hr0⟩ := hne
            obtain ⟨h5, hpair78, hpair79, hsync, hs⟩ :=
              parsePacket_dropAll_inv hp hp0 hr0
            subst hs
            have hpb : processBuffer buffer = ([], []) := by
              rw [processBuffer_eq buffer, hp]
              simp [stepFrames, processBuffer, processBufferFuel]
            rw [hpb]
            simp only [List.nil_append]
            have hg0 : (buffer ++ ext).getD 0 0 = buffer.getD 0 0 :=
              getD_append_front (by omega)
            have hg1 : (buffer ++ ext).getD 1 0 = buffer.getD 1 0 :=
              getD_append_front (by omega)
            have hlen5 : ¬((buffer ++ ext).length < 5) := by
              simp only [List.length_append]; omega
            have hsync1 : firstSyncIdx (buffer.drop 1) = none := by
              unfold nextStartIndex at hsync
              simpa using hsync
            have hdrop1 : (buffer ++ ext).drop 1 = buffer.drop 1 ++ ext :=
              List.drop_append_of_le_length (by omega)
            cases he : firstSyncIdx ext with
            | none =>
                have hnext : nextStartIndex (buffer ++ ext) = none := by
                  unfold nextStartIndex
                  rw [hdrop1, firstSyncIdx_append_none ext hsync1, he]
                  rfl
                have hparse : parsePacket (buffer ++ ext) = some ⟨none, none, []⟩ := by
                  unfold parsePacket
                  rw [if_neg hlen5, hg0, hg1, if_neg hpair78, if_neg hpair79, hnext]
                rw [processBuffer_eq (buffer ++ ext), hparse]
                rw [processBuffer_frames_syncFree he]
                simp [stepFrames, processBuffer, processBufferFuel]
            | some j =>
                have hjlt := firstSyncIdx_lt_length he
                have hnext : nextStartIndex (buffer ++ ext) =
                    some (buffer.length + j) := by
                  unfold nextStartIndex
                  rw [hdrop1, firstSyncIdx_append_none ext hsync1, he]
                  simp only [Option.map_some', List.length_drop]
                  refine congrArg some ?_
                  omega
                have hremain : (buffer ++ ext).drop (buffer.length + j) = ext.drop j := by
                  rw [← List.drop_drop, List.drop_left]
                have hparse : parsePacket (buffer ++ ext) =
                    some ⟨none, none, ext.drop j⟩ := by
                  unfold parsePacket
                  rw [if_neg hlen5, hg0, hg1, if_neg hpair78, if_neg hpair79, hnext]
                  dsimp only
                  rw [hremain]
                rw [processBuffer_eq (buffer ++ ext), hparse]
                rw [processBuffer_frames_dropSync he]
                simp [stepFrames]

theorem processBuffer_frames_append' (buffer ext : List Nat) :
    (processBuffer (buffer ++ ext)).1 =
      (processBuffer buffer).1 ++
        (processBuffer ((processBuffer buffer).2 ++ ext)).1 :=
  processBuffer_frames_append buffer.length buffer le_rfl ext

/-- The residual buffer left by the dispatch loop is quiescent: running
`parsePacket` on it returns null. -/
theorem processBuffer_residual_quiescent :
    ∀ n buffer, buffer.length ≤ n →
      parsePacket (processBuffer buffer).2 = none := by
  intro n
  induction n with
  | zero =>
      intro buffer h
      have hb : buffer = [] := List.length_eq_zero.mp (Nat.le_zero.mp h)
      subst hb
      simp [processBuffer, processBufferFuel, parsePacket_short]
  | succ n ih =>
      intro buffer hlen
      cases hp : parsePacket buffer with
      | none =>
          rw [processBuffer_eq buffer, hp]
          exact hp
      | some s =>
          rw [processBuffer_eq buffer, hp]
          have := (parsePacket_progress buffer s hp).1
          exact ih s.remaining (by omega)

theorem feedAllFrom_frames :
    ∀ (cs : List (List Nat)) (st : List Nat), parsePacket st = none →
      (feedAllFrom st cs).1 = (processBuffer (st ++ cs.flatten)).1 := by
  intro cs
  induction cs with
  | nil =>
      intro st hst
      rw [List.flatten_nil, List.append_nil]
      rw [show (feedAllFrom st []).1 = [] from rfl]
      rw [processBuffer_eq st, hst]
  | cons c cs ih =>
      intro st hst
      simp only [feedAllFrom, List.flatten_cons]
      rw [ih _ (processBuffer_residual_quiescent _ _ le_rfl)]
      rw [← List.append_assoc]
      exact (processBuffer_frames_append' (st ++ c) cs.flatten).symm

/-- The S1 login frame of the specification:
`78 78 11 01 03 55 17 21 07 46 10 53 00 36 00 01 00 01 E0 D1 0D 0A`. -/
def s1LoginFrame : List Nat :=
  [0x78, 0x78, 0x11, 0x01, 0x03, 0x55, 0x17, 0x21, 0x07, 0x46, 0x10, 0x53,
   0x00, 0x36, 0x00, 0x01, 0x00, 0x01, 0xE0, 0xD1, 0x0D, 0x0A]

/-- C1 (amended): feeding a byte stream to the per-connection dispatch
loop in any chunking emits the same sequence of frames (same bytes, same
opcodes, in the same order) as presenting the entire stream in one
chunk.  (The residual-buffer half of the original claim is refuted by
`feedAll_residual_cex`.) -/
theorem feedAll_frames_chunking_invariant (chunks : List (List Nat)) :
    (feedAll chunks).1 = (processBuffer chunks.flatten).1 := by
  have h := feedAllFrom_frames chunks [] (by rfl)
  simpa [feedAll] using h

/-- C1 counterexample: on the 7-byte stream
`AA AA AA AA AA BB 78` split into chunks of sizes 5 and 2, the chunked
run keeps the residual `BB 78` while the one-chunk run drops the five
leading garbage bytes together with the byte `BB` (the resync scan only
runs once at least 5 bytes are buffered) and retains only `78`, so the
residual buffers differ. -/
theorem feedAll_residual_cex :
    (feedAll [[0xAA, 0xAA, 0xAA, 0xAA, 0xAA], [0xBB, 0x78]]).2 = [0xBB, 0x78] ∧
      (processBuffer ([0xAA, 0xAA, 0xAA, 0xAA, 0xAA] ++ [0xBB, 0x78])).2 = [0x78] ∧
      ([0xBB, 0x78] : List Nat) ≠ [0x78] :=
  ⟨rfl, rfl, by decide⟩

set_option maxRecDepth 8192 in
/-- C2: `createLoginAck` applied to sequence 0x0001 returns exactly the
ten bytes `78 78 05 01 00 01 D9 DC 0D 0A`. -/
theorem createLoginAck_s1_bytes :
    createLoginAck 0x0001 =
      [0x78, 0x78, 0x05, 0x01, 0x00, 0x01, 0xD9, 0xDC, 0x0D, 0x0A] := by
  decide

/-- C10: the frame codec always makes progress: every non-null
`parsePacket` result carries a remaining buffer strictly shorter than
the input, a frame step consumes at least 5 bytes, and the dispatch loop
of `handleConnection` reaches its fixed point within `buffer.length`
iterations (any fuel of at least `buffer.length` computes the same
result), so the loop terminates on every input. -/
theorem parsePacket_progress_termination (buffer : List Nat) (s : ParseStep)
    (h : parsePacket buffer = some s) :
    s.remaining.length < buffer.length ∧
      (s.packet ≠ none → s.remaining.length + 5 ≤ buffer.length) ∧
      ∀ fuel, buffer.length ≤ fuel →
        processBufferFuel fuel buffer = processBuffer buffer := by
  obtain ⟨h1, h2⟩ := parsePacket_progress buffer s h
  exact ⟨h1, h2,
    fun fuel hf => processBufferFuel_congr fuel buffer.length buffer hf le_rfl⟩

/-- Witness for C10 at the concrete S1 login frame. -/
theorem parsePacket_progress_termination_witness :
    ([] : List Nat).length < s1LoginFrame.length ∧
      ([] : List Nat).length + 5 ≤ s1LoginFrame.length ∧
      processBufferFuel 22 s1LoginFrame = processBuffer s1LoginFrame := by
  obtain ⟨h1, h2, h3⟩ := parsePacket_progress_termination s1LoginFrame
    ⟨some s1LoginFrame, some 0x01, []⟩ (by rfl)
  exact ⟨h1, h2 (by simp), h3 22 (by decide)⟩

/-! ### Identifier round trip (C7) -/

theorem toBCDBytes_nibbles :
    ∀ ns : List Nat, (∀ n ∈ ns, n < 16) → ns.length % 2 = 0 →
      ((toBCDBytes ns).map (fun b => [b / 16, b % 16])).flatten = ns := by
  intro ns
  induction ns using toBCDBytes.induct with
  | case1 d1 d2 rest ih =>
      intro h16 heven
      have h1 : d1 < 16 := h16 d1 (by simp)
      have h2 : d2 < 16 := h16 d2 (by simp)
      have hdiv : (d1 * 16 + d2) / 16 = d1 := by omega
      have hmod : (d1 * 16 + d2) % 16 = d2 := by omega
      simp only [toBCDBytes, List.map_cons, List.flatten_cons, hdiv, hmod]
      rw [ih (fun n hn => h16 n (by simp [hn]))
        (by simp only [List.length_cons] at heven; omega)]
      rfl
  | case2 t h =>
      intro _ heven
      cases t with
      | nil => rfl
      | cons a l =>
          cases l with
          | nil => simp at heven
          | cons b l2 => exact absurd rfl (h a b l2)

/-- C7 (amended): any 15-digit identifier whose first digit is nonzero,
encoded to 8 BCD bytes with one leading zero-padding nibble, decodes
back to itself through `extractIMEI`.  (Identifiers with a leading zero
digit lose it to the leading-zero strip, see
`extractIMEI_leading_zero_cex`.) -/
theorem encodeIMEI_extractIMEI (digits : List Nat) (hlen : digits.length = 15)
    (hdig : ∀ d ∈ digits, d < 10) (hhead : digits.headD 0 ≠ 0) :
    extractIMEI (encodeIMEI digits) = digits := by
  have h16 : ∀ n ∈ 0 :: digits, n < 16 := by
    intro n hn
    rcases List.mem_cons.mp hn with rfl | hmem
    · omega
    · exact Nat.lt_of_lt_of_le (hdig n hmem) (by omega)
  have heven : (0 :: digits).length % 2 = 0 := by simp [hlen]
  have h1 := toBCDBytes_nibbles (0 :: digits) h16 heven
  have hdw : (0 :: digits).dropWhile (· == 0) = digits := by
    rw [List.dropWhile_cons]
    simp only [beq_self_eq_true, if_true]
    cases hd : digits with
    | nil => simp [hd] at hlen
    | cons d rest =>
        rw [List.dropWhile_cons, if_neg ?_]
        rw [hd] at hhead
        simp only [List.headD] at hhead
        simpa using hhead
  simp only [extractIMEI, encodeIMEI]
  simp only [encodeIMEI] at h1
  rw [h1, hdw, if_neg (by omega)]

/-- Witness for C7 at the S1 identifier 355172107461053. -/
theorem encodeIMEI_extractIMEI_witness :
    extractIMEI (encodeIMEI [3, 5, 5, 1, 7, 2, 1, 0, 7, 4, 6, 1, 0, 5, 3]) =
      [3, 5, 5, 1, 7, 2, 1, 0, 7, 4, 6, 1, 0, 5, 3] :=
  encodeIMEI_extractIMEI _ (by decide) (by decide) (by decide)

/-- C7 counterexample: the 15-digit identifier 012345678901234 (leading
digit zero) comes back from the BCD round trip with its leading zero
stripped, as a 14-digit string, not the original. -/
theorem extractIMEI_leading_zero_cex :
    extractIMEI (encodeIMEI [0, 1, 2, 3, 4, 5, 6, 7, 8, 9, 0, 1, 2, 3, 4]) =
      [1, 2, 3, 4, 5, 6, 7, 8, 9, 0, 1, 2, 3, 4] ∧
      ([1, 2, 3, 4, 5, 6, 7, 8, 9, 0, 1, 2, 3, 4] : List Nat) ≠
        [0, 1, 2, 3, 4, 5, 6, 7, 8, 9, 0, 1, 2, 3, 4] :=
  ⟨rfl, by decide⟩

/-! ### GPS sign bits and positioned flag (C5, C6) -/

theorem shift8_and_ff (b1 b2 : Nat) (h1 : b1 < 256) (h2 : b2 < 256) :
    ((256 * b1 + b2) >>> 8) &&& 0xff = b1 := by
  have hs : (256 * b1 + b2) >>> 8 = b1 := by
    rw [Nat.shiftRight_eq_div_pow]
    have h28 : (2 : Nat) ^ 8 = 256 := by norm_num
    rw [h28]
    omega
  rw [hs]
  have hm := Nat.and_pow_two_sub_one_eq_mod b1 8
  norm_num at hm
  rw [hm]
  omega

/-- C5 (amended): for a GPS location frame (opcode 0x22) the parser maps
bit3 of the course-status upper byte B1 as the claim states (0 = east,
positive longitude; 1 = west, negative longitude), but bit2 the opposite
way round from the claim: bit2 = 1 yields SOUTH (negative latitude) and
bit2 = 0 yields north (positive latitude).  The GPS block of the 0x27
HVT001 alarm follows the claim for both bits: bit2 = 1 north (positive),
bit3 = 0 east (positive). -/
theorem gps_sign_bits (la0 la1 la2 la3 lo0 lo1 lo2 lo3 b1 b2 : Nat)
    (h1 : b1 < 256) (h2 : b2 < 256) :
    ((parseGPSLocation (mkGPS22Packet la0 la1 la2 la3 lo0 lo1 lo2 lo3 b1 b2)).latitude =
        if b1 &&& 0x04 ≠ 0 then
          -(((16777216 * la0 + 65536 * la1 + 256 * la2 + la3 : Nat) : ℚ) / 1800000)
        else ((16777216 * la0 + 65536 * la1 + 256 * la2 + la3 : Nat) : ℚ) / 1800000) ∧
      ((parseGPSLocation (mkGPS22Packet la0 la1 la2 la3 lo0 lo1 lo2 lo3 b1 b2)).longitude =
        if b1 &&& 0x08 ≠ 0 then
          -(((16777216 * lo0 + 65536 * lo1 + 256 * lo2 + lo3 : Nat) : ℚ) / 1800000)
        else ((16777216 * lo0 + 65536 * lo1 + 256 * lo2 + lo3 : Nat) : ℚ) / 1800000) ∧
      ((parseAlarmHVT001 (mkHVT001Packet la0 la1 la2 la3 lo0 lo1 lo2 lo3 b1 b2)).gpsData.map
          (fun g => (g.latitude, g.longitude)) =
        some
          (roundTo6 (((16777216 * la0 + 65536 * la1 + 256 * la2 + la3 : Nat) : ℚ) / 1800000 *
            (if b1 &&& 0x04 ≠ 0 then 1 else -1)),
           roundTo6 (((16777216 * lo0 + 65536 * lo1 + 256 * lo2 + lo3 : Nat) : ℚ) / 1800000 *
            (if b1 &&& 0x08 = 0 then 1 else -1)))) := by
  refine ⟨?_, ?_, ?_⟩
  · simp only [parseGPSLocation, mkGPS22Packet, getHeaderSize, isLongPacket,
      readUInt32BE, readUInt16BE, readUInt24BE]
    norm_num [List.getD_cons_succ, List.getD_cons_zero]
    rw [shift8_and_ff b1 b2 h1 h2]
    by_cases h4 : b1 &&& 0x04 = 0 <;> simp [h4]
  · simp only [parseGPSLocation, mkGPS22Packet, getHeaderSize, isLongPacket,
      readUInt32BE, readUInt16BE, readUInt24BE]
    norm_num [List.getD_cons_succ, List.getD_cons_zero]
    rw [shift8_and_ff b1 b2 h1 h2]
    by_cases h8 : b1 &&& 0x08 = 0 <;> simp [h8]
  · simp only [parseAlarmHVT001, mkHVT001Packet, getHeaderSize, isLongPacket,
      readUInt32BE, readUInt16BE, readUInt24BE]
    norm_num [List.getD_cons_succ, List.getD_cons_zero]
    rw [shift8_and_ff b1 b2 h1 h2]
    by_cases h4 : b1 &&& 0x04 = 0 <;> by_cases h8 : b1 &&& 0x08 = 0 <;>
      simp [h4, h8] <;> decide

/-- Witness for C5 at B1 = 0x0C (bit2 and bit3 both set) and raw
coordinates 18000000 (10 degrees). -/
theorem gps_sign_bits_witness :
    (0x0C : Nat) < 256 ∧ (0 : Nat) < 256 ∧
    (((parseGPSLocation (mkGPS22Packet 1 18 168 128 1 18 168 128 0x0C 0)).latitude =
        if (0x0C : Nat) &&& 0x04 ≠ 0 then
          -(((16777216 * 1 + 65536 * 18 + 256 * 168 + 128 : Nat) : ℚ) / 1800000)
        else ((16777216 * 1 + 65536 * 18 + 256 * 168 + 128 : Nat) : ℚ) / 1800000) ∧
      ((parseGPSLocation (mkGPS22Packet 1 18 168 128 1 18 168 128 0x0C 0)).longitude =
        if (0x0C : Nat) &&& 0x08 ≠ 0 then
          -(((16777216 * 1 + 65536 * 18 + 256 * 168 + 128 : Nat) : ℚ) / 1800000)
        else ((16777216 * 1 + 65536 * 18 + 256 * 168 + 128 : Nat) : ℚ) / 1800000) ∧
      ((parseAlarmHVT001 (mkHVT001Packet 1 18 168 128 1 18 168 128 0x0C 0)).gpsData.map
          (fun g => (g.latitude, g.longitude)) =
        some
          (roundTo6 (((16777216 * 1 + 65536 * 18 + 256 * 168 + 128 : Nat) : ℚ) / 1800000 *
            (if (0x0C : Nat) &&& 0x04 ≠ 0 then 1 else -1)),
           roundTo6 (((16777216 * 1 + 65536 * 18 + 256 * 168 + 128 : Nat) : ℚ) / 1800000 *
            (if (0x0C : Nat) &&& 0x08 = 0 then 1 else -1))))) :=
  ⟨by decide, by decide,
    gps_sign_bits 1 18 168 128 1 18 168 128 0x0C 0 (by decide) (by decide)⟩

/-- C5 counterexample: a concrete 0x22 frame with B1 = 0x04 (bit2 set)
and raw latitude 18000000 decodes to latitude -10 (south), while the
claim demands that bit2 = 1 yield north (positive latitude). -/
theorem gps22_latitude_bit2_cex :
    ((4 : Nat) &&& 0x04 ≠ 0) ∧
      (parseGPSLocation
        (mkGPS22Packet 0x01 0x12 0xA8 0x80 0x01 0x12 0xA8 0x80 0x04 0x00)).latitude =
        -10 := by
  constructor
  · decide
  · simp only [parseGPSLocation, mkGPS22Packet, getHeaderSize, isLongPacket,
      readUInt32BE, readUInt16BE, readUInt24BE]
    norm_num [List.getD_cons_succ, List.getD_cons_zero]
    decide

/-- C6 (amended): `parseGPSLocation` reports `gpsPositioned` as exactly
bit4 of the course-status upper byte B1; no range validation of the
decoded coordinates is performed, so frames whose latitude or longitude
lies outside the legal ranges can still carry `gpsPositioned = true`. -/
theorem gpsPositioned_bit4 (la0 la1 la2 la3 lo0 lo1 lo2 lo3 b1 b2 : Nat)
    (h1 : b1 < 256) (h2 : b2 < 256) :
    (parseGPSLocation (mkGPS22Packet la0 la1 la2 la3 lo0 lo1 lo2 lo3 b1 b2)).gpsPositioned =
      (b1 &&& 0x10 != 0) := by
  simp only [parseGPSLocation, mkGPS22Packet, getHeaderSize, isLongPacket,
    readUInt32BE, readUInt16BE, readUInt24BE]
  norm_num [List.getD_cons_succ, List.getD_cons_zero]
  rw [shift8_and_ff b1 b2 h1 h2]

/-- Witness for C6 at B1 = 0x10 (bit4 set). -/
theorem gpsPositioned_bit4_witness :
    (0x10 : Nat) < 256 ∧ (0 : Nat) < 256 ∧
    (parseGPSLocation (mkGPS22Packet 1 18 168 128 1 18 168 128 0x10 0)).gpsPositioned =
      ((0x10 : Nat) &&& 0x10 != 0) :=
  ⟨by decide, by decide,
    gpsPositioned_bit4 1 18 168 128 1 18 168 128 0x10 0 (by decide) (by decide)⟩

/-- C6 counterexample: a concrete 0x22 frame with raw latitude
0xFFFFFFFF (about 2386 degrees, far outside [-90, 90]) and bit4 set
still parses with `gpsPositioned = true`, while the claim demands
`gpsPositioned = false` for out-of-range coordinates. -/
theorem gpsPositioned_out_of_range_cex :
    (parseGPSLocation
        (mkGPS22Packet 0xFF 0xFF 0xFF 0xFF 0 0 0 0 0x10 0)).gpsPositioned = true ∧
      90 < (parseGPSLocation
        (mkGPS22Packet 0xFF 0xFF 0xFF 0xFF 0 0 0 0 0x10 0)).latitude := by
  constructor
  · rfl
  · simp only [parseGPSLocation, mkGPS22Packet, getHeaderSize, isLongPacket,
      readUInt32BE, readUInt16BE, readUInt24BE]
    norm_num [List.getD_cons_succ, List.getD_cons_zero]
    rw [if_neg (by decide)]
    norm_num

/-! ### WiFi access-point signal (C9) -/

/-- C9 (amended): `parseWiFi` reports an access point's signal as the JS
expression `strength > 128 ? strength - 256 : strength` — a strict
comparison, so every byte except 0x80 gets its two's-complement value,
but 0x80 (128) is reported as +128 instead of -128 (see
`parseWiFi_signal_128_cex`).  Stated for every strength byte `b` of the
single-AP frame `mkWiFiPacket b`. -/
theorem parseWiFi_signal_twos_complement (b : Nat) :
    (parseWiFi (mkWiFiPacket b)).accessPoints.map (fun a => a.signal) =
      [if 128 < b then (b : Int) - 256 else (b : Int)] := rfl

/-- C9 counterexample: the strength byte 0x80 = 128 is reported as +128,
while the claimed two's-complement interpretation (b - 256 for b >= 128)
demands -128. -/
theorem parseWiFi_signal_128_cex :
    (parseWiFi (mkWiFiPacket 128)).accessPoints.map (fun a => a.signal) =
        [(128 : Int)] ∧
      ((128 : Int) ≠ (128 : Int) - 256) :=
  ⟨rfl, by decide⟩

/-! ### Command encoder length field (C4) -/

set_option maxRecDepth 8192 in
/-- C4: the claim's length formula
`packet_length = 1 + 1 + command_length + 2 + 2` with
`command_length = 4 + command + 2` holds of the `sendCommand` encoder in
`src/unnamed/part_010` (its length byte for STATUS# is 19), but the
duplicate encoder in `src/packages/server/index.js` declares
`commandLength + 5` — one less — contradicting its own structure comment
(protocol 1 + length byte 1 + content + serial 2 + CRC 2), so the code
diverges from the claim at every command; shown here at STATUS#. -/
theorem sendCommand_length_divergence :
    (sendCommandPacketServer statusCommand 1).getD 2 0 = 18 ∧
      1 + 1 + (4 + statusCommand.length + 2) + 2 + 2 = 19 ∧
      (sendCommandPacket statusCommand 1).getD 2 0 = 19 :=
  ⟨by decide, by decide, by decide⟩

/-! ### Pending-command correlation (C3) -/

theorem lookup_filter_ne {α β : Type} [BEq α] [LawfulBEq α]
    (m : List (α × β)) (k : α) :
    List.lookup k (m.filter (fun e => e.1 != k)) = none := by
  induction m with
  | nil => rfl
  | cons e rest ih =>
      obtain ⟨k', v⟩ := e
      by_cases he : k' = k
      · subst he
        rw [List.filter_cons_of_neg (by simp)]
        exact ih
      · rw [List.filter_cons_of_pos (by simpa using he)]
        simp only [List.lookup]
        rw [show (k == k') = false from by simpa using Ne.symm he]
        exact ih

theorem pendingGet_recordPendingCommand (pending : PendingMap) (q : Nat)
    (cmd imei : String) (t0 : Nat) :
    pendingGet (recordPendingCommand pending q cmd imei t0) q =
      some ⟨cmd, t0, imei⟩ := by
  simp [recordPendingCommand, pendingSet, pendingGet, List.lookup]

/-- C3: after `sendCommand` records sequence `q` at time `t0`, a 0x21 or
0x15 response carrying `q` processed before the 60-second timer (i.e.
arriving within 60 seconds, at time `t1`) produces exactly one matched
event with latency `t1 - t0` and removes the entry, after which the
timer finds nothing and stays silent and a later duplicate response is
reported unmatched; if instead the 60-second timer fires first (no
response within 60 seconds), it emits exactly one timeout event and
removes the entry, and any response carrying `q` arriving after that is
reported unmatched.  The 60-second bound is modelled by the processing
order: the response handler runs before the timer body exactly when the
response arrives within the timer's 60000 ms delay. -/
theorem command_correlation (pending : PendingMap) (q t0 t1 t2 : Nat)
    (cmd imei : String) :
    ((handleCommandResponseMatch (recordPendingCommand pending q cmd imei t0) q t1).1 =
        [.matched cmd (t1 - t0)] ∧
      pendingGet (handleCommandResponseMatch
        (recordPendingCommand pending q cmd imei t0) q t1).2 q = none ∧
      commandTimeoutFire (handleCommandResponseMatch
          (recordPendingCommand pending q cmd imei t0) q t1).2 q cmd =
        ([], (handleCommandResponseMatch
          (recordPendingCommand pending q cmd imei t0) q t1).2) ∧
      (handleCommandResponseMatch (handleCommandResponseMatch
        (recordPendingCommand pending q cmd imei t0) q t1).2 q t2).1 = [.unmatched]) ∧
    ((commandTimeoutFire (recordPendingCommand pending q cmd imei t0) q cmd).1 =
        [.timeout cmd] ∧
      pendingGet (commandTimeoutFire
        (recordPendingCommand pending q cmd imei t0) q cmd).2 q = none ∧
      (handleCommandResponseMatch (commandTimeoutFire
        (recordPendingCommand pending q cmd imei t0) q cmd).2 q t2).1 = [.unmatched]) := by
  have hget := pendingGet_recordPendingCommand pending q cmd imei t0
  have hdel : pendingGet
      (pendingDelete (recordPendingCommand pending q cmd imei t0) q) q = none :=
    lookup_filter_ne _ q
  constructor
  · have hresp : handleCommandResponseMatch
        (recordPendingCommand pending q cmd imei t0) q t1 =
        ([.matched cmd (t1 - t0)],
          pendingDelete (recordPendingCommand pending q cmd imei t0) q) := by
      simp [handleCommandResponseMatch, hget]
    rw [hresp]
    refine ⟨rfl, hdel, ?_, ?_⟩
    · simp [commandTimeoutFire, hdel]
    · simp [handleCommandResponseMatch, hdel]
  · have hfire : commandTimeoutFire
        (recordPendingCommand pending q cmd imei t0) q cmd =
        ([.timeout cmd],
          pendingDelete (recordPendingCommand pending q cmd imei t0) q) := by
      simp [commandTimeoutFire, hget]
    rw [hfire]
    exact ⟨rfl, hdel, by simp [handleCommandResponseMatch, hdel]⟩

/-! ### Registry removal on close (C8) -/

/-- C8 (amended): when a session whose identifier was bound closes, the
registry entry for that identifier is removed unconditionally — the
close handler never checks whether the registry still points at the
closing socket — so the delayed close of an older session DOES remove
the registry entry of a newer session that re-logged-in with the same
identifier (see `registry_close_stale_cex`); a close without a bound
identifier leaves the registry untouched. -/
theorem handleCloseRegistry_unconditional (reg : Registry) (imei : String) :
    List.lookup imei (handleCloseRegistry reg (some imei)) = none ∧
      handleCloseRegistry reg none = reg :=
  ⟨lookup_filter_ne reg imei, rfl⟩

/-- C8 counterexample: session 1 logs in with identifier
355172107461053, session 2 re-logs-in with the same identifier (registry
now points at session 2), then session 1's delayed close runs: the
registry entry for the identifier is deleted even though it pointed at
the newer session 2, leaving the online device unregistered. -/
theorem registry_close_stale_cex :
    List.lookup "355172107461053"
        (handleLoginRegistry (handleLoginRegistry [] "355172107461053" 1)
          "355172107461053" 2) = some 2 ∧
      List.lookup "355172107461053"
        (handleCloseRegistry
          (handleLoginRegistry (handleLoginRegistry [] "355172107461053" 1)
            "355172107461053" 2)
          (some "355172107461053")) = none :=
  ⟨by decide, by decide⟩

end Concox
